import Mathlib

/-!
Verification of the portgeist daemon core: a shallow embedding of the
ACL engine (internal/acl/engine.go), the proxy lifecycle manager
(internal/proxy/manager.go and the host-fallback draft), the SSH
external-command backend (internal/backend/ssh_exec.go), the command
dispatcher (dispatch/dispatcher.go) and the control-server request
processing (internal/control/server.go, the handlers of
cmd/geistctl/cmd/launch.go), together with theorems settling the
specification claims about them.
-/

namespace Portgeist

/-- Association-list lookup, the embedding of a Go map read
(`v, ok := m[k]`); later entries never shadow earlier ones because
insertion (below) always removes the key first. -/
def findA {α : Type} : List (String × α) → String → Option α
  | [], _ => none
  | (k2, v) :: rest, k => if k2 = k then some v else findA rest k

deriving instance DecidableEq for Except

/-! ## ACL engine (internal/acl/engine.go) -/

/-- `ACLRule` from engine.go: subjects (user or group names), an optional
permission filter, and the deny flag. -/
structure ACLRule where
  description : String
  subjects : List String
  permissions : List String
  deny : Bool
deriving DecidableEq, Repr

/-- `ACLRuleSet` from engine.go: the ordered rules attached to an object. -/
structure ACLRuleSet where
  rules : List ACLRule
deriving DecidableEq, Repr

/-- `User` from engine.go; `groups` is the back-index of group
memberships materialised at `Init`. -/
structure AclUser where
  name : String
  roles : List String
  token : String
  groups : List String
deriving DecidableEq, Repr

/-- `Group` from engine.go. -/
structure AclGroup where
  name : String
  members : List String
  roles : List String
deriving DecidableEq, Repr

/-- `Role` from engine.go. -/
structure AclRole where
  name : String
  permissions : List String
deriving DecidableEq, Repr

/-- `aclChecker` from engine.go: the initialised engine state. -/
structure AclChecker where
  enabled : Bool
  users : List (String × AclUser)
  groups : List (String × AclGroup)
  roles : List (String × AclRole)
deriving DecidableEq, Repr

/-- `ACLRule.hasPerm` from engine.go: an empty permission filter matches
every permission. -/
def ACLRule.hasPerm (r : ACLRule) (perm : String) : Bool :=
  if r.permissions.isEmpty then true
  else r.permissions.contains perm

/-- `aclChecker.userMatches` from engine.go: a subject matches the user
by name, or by being one of the groups on the user record. -/
def AclChecker.userMatches (a : AclChecker) (user subject : String) : Bool :=
  if subject = user then true
  else
    match findA a.users user with
    | none => false
    | some u => u.groups.contains subject

/-- `ACLRule.hasSubject` from engine.go: an empty subjects list matches
no user; otherwise some subject must match via `userMatches`. -/
def hasSubject (a : AclChecker) (r : ACLRule) (user : String) : Bool :=
  if r.subjects.isEmpty then false
  else r.subjects.any (fun s => a.userMatches user s)

/-- `aclChecker.userRoles` from engine.go: the direct roles followed by
the roles of every group on the user record. -/
def AclChecker.userRoles (a : AclChecker) (u : AclUser) : List String :=
  u.roles ++ u.groups.foldl (fun acc gn =>
    match findA a.groups gn with
    | some g => acc ++ g.roles
    | none => acc) []

/-- `aclChecker.userHasPermission` from engine.go: some effective role
of the user grants the permission. -/
def AclChecker.userHasPermission (a : AclChecker) (user perm : String) : Bool :=
  match findA a.users user with
  | none => false
  | some u =>
      (a.userRoles u).any (fun rn =>
        match findA a.roles rn with
        | some role => role.permissions.contains perm
        | none => false)

/-- The rule loop of `aclChecker.can` from engine.go: rules are visited
in order, inapplicable rules are skipped, an applicable deny rule
returns false immediately, and an applicable allow rule records a match. -/
def canLoop (a : AclChecker) (user perm : String) : List ACLRule → Bool → Bool
  | [], m => m
  | r :: rest, m =>
    if !(r.hasPerm perm) then canLoop a user perm rest m
    else if !(hasSubject a r user) then canLoop a user perm rest m
    else if r.deny then false
    else canLoop a user perm rest true

/-- `aclChecker.can` from engine.go: the global role gate, then the
empty-rule-set shortcut, then the rule loop. -/
def AclChecker.can (a : AclChecker) (user perm : String) (rules : ACLRuleSet) : Bool :=
  if !(a.userHasPermission user perm) then false
  else if rules.rules.isEmpty then true
  else canLoop a user perm rules.rules false

/-- `aclValid` from engine.go over the optional global handle:
`(true, false)` rejects when uninitialised, `(true, true)` allows when
disabled, `(false, _)` continues with the normal check. -/
def aclValid (h : Option AclChecker) : Bool × Bool :=
  match h with
  | none => (true, false)
  | some a => if !a.enabled then (true, true) else (false, false)

/-- `Can` from engine.go, with the global `aclhandle` made an explicit
argument. -/
def Can (h : Option AclChecker) (user perm : String) (rules : ACLRuleSet) : Bool :=
  match aclValid h with
  | (true, result) => result
  | (false, _) =>
    match h with
    | some a => a.can user perm rules
    | none => false

/-- `aclChecker.userCredsValid` from engine.go: token equality for a
known user. -/
def AclChecker.userCredsValid (a : AclChecker) (user token : String) : Bool :=
  match findA a.users user with
  | none => false
  | some u => u.token = token

/-! ### C2: deny precedence -/

/-- If an applicable deny rule occurs anywhere in the list, the rule
loop returns false, whatever match flag has accumulated. -/
theorem canLoop_deny (a : AclChecker) (user perm : String) :
    ∀ (l : List ACLRule) (m : Bool),
      (∃ r, r ∈ l ∧ r.hasPerm perm = true ∧ hasSubject a r user = true ∧ r.deny = true) →
      canLoop a user perm l m = false := by
  intro l
  induction l with
  | nil =>
    intro m h
    obtain ⟨r, hr, _⟩ := h
    simp at hr
  | cons r rest ih =>
    intro m h
    obtain ⟨r2, hr2, hp, hs, hd⟩ := h
    rcases List.mem_cons.mp hr2 with heq | hmem
    · subst heq
      simp [canLoop, hp, hs, hd]
    · cases hp1 : r.hasPerm perm with
      | false => simpa [canLoop, hp1] using ih m ⟨r2, hmem, hp, hs, hd⟩
      | true =>
        cases hs1 : hasSubject a r user with
        | false => simpa [canLoop, hp1, hs1] using ih m ⟨r2, hmem, hp, hs, hd⟩
        | true =>
          cases hd1 : r.deny with
          | true => simp [canLoop, hp1, hs1, hd1]
          | false => simpa [canLoop, hp1, hs1, hd1] using ih true ⟨r2, hmem, hp, hs, hd⟩

/-- C2: for every initialised and enabled ACL engine, user, permission
and rule set, any applicable deny rule (its permission filter empty or
containing the permission, and its subjects matching the user by name or
group) forces `Can` to return false regardless of allow rules; moreover
a rule with empty subjects is applicable to no user and a rule with an
empty permission filter matches every permission. -/
theorem c2_deny_precedence (a : AclChecker) (hen : a.enabled = true)
    (u pm : String) (rs : ACLRuleSet) :
    ((∃ r, r ∈ rs.rules ∧ r.hasPerm pm = true ∧ hasSubject a r u = true ∧ r.deny = true) →
      Can (some a) u pm rs = false)
    ∧ (∀ r : ACLRule, r.subjects = [] → hasSubject a r u = false)
    ∧ (∀ r : ACLRule, r.permissions = [] → r.hasPerm pm = true) := by
  refine ⟨?_, ?_, ?_⟩
  · intro h
    have hrules : rs.rules ≠ [] := by
      obtain ⟨r, hr, _⟩ := h
      exact List.ne_nil_of_mem hr
    simp only [Can, aclValid, hen]
    cases hperm : a.userHasPermission u pm with
    | false => simp [AclChecker.can, hperm]
    | true =>
      simp [AclChecker.can, hperm, List.isEmpty_iff, hrules]
      exact canLoop_deny a u pm rs.rules false h
  · intro r hr
    simp [hasSubject, hr]
  · intro r hr
    simp [ACLRule.hasPerm, hr]

/-- Concrete engine used to witness C2: alice is in group admins, her
role grants proxy_start, the rule set allows admins but denies alice. -/
def c2Checker : AclChecker :=
  { enabled := true
    users := [("alice", { name := "alice", roles := ["starter"], token := "T", groups := ["admins"] })]
    groups := [("admins", { name := "admins", members := ["alice"], roles := [] })]
    roles := [("starter", { name := "starter", permissions := ["proxy_start"] })] }

/-- Rule set used to witness C2: an allow rule for admins followed by a
deny rule for alice. -/
def c2Rules : ACLRuleSet :=
  { rules :=
      [ { description := "allow admins", subjects := ["admins"], permissions := ["proxy_start"], deny := false }
      , { description := "deny alice", subjects := ["alice"], permissions := ["proxy_start"], deny := true } ] }

/-- Witness for C2: on the concrete engine the applicable deny rule
makes `Can` return false even though an allow rule also applies. -/
theorem c2_witness : Can (some c2Checker) "alice" "proxy_start" c2Rules = false :=
  (c2_deny_precedence c2Checker rfl "alice" "proxy_start" c2Rules).1
    ⟨{ description := "deny alice", subjects := ["alice"], permissions := ["proxy_start"], deny := true },
      by decide, by decide, by decide, rfl⟩

/-! ### C3: Can soundness with respect to effective roles -/

/-- C3 (amended): on an initialised and enabled engine, `Can` returning
true implies that the user exists and one of the effective roles of the
user (direct roles united with the roles of the groups, as computed by
`userRoles`) grants the permission. -/
theorem c3_can_sound (a : AclChecker) (hen : a.enabled = true)
    (u pm : String) (rs : ACLRuleSet)
    (h : Can (some a) u pm rs = true) :
    ∃ usr, findA a.users u = some usr ∧
      ∃ rn, rn ∈ a.userRoles usr ∧
        ∃ role, findA a.roles rn = some role ∧ role.permissions.contains pm = true := by
  simp only [Can, aclValid, hen] at h
  cases hperm : a.userHasPermission u pm with
  | false => simp [AclChecker.can, hperm] at h
  | true =>
    have hperm2 := hperm
    simp only [AclChecker.userHasPermission] at hperm2
    cases husr : findA a.users u with
    | none => rw [husr] at hperm2; exact absurd hperm2 (by simp)
    | some usr =>
      rw [husr] at hperm2
      simp only [List.any_eq_true] at hperm2
      obtain ⟨rn, hrn, hrole⟩ := hperm2
      cases hrl : findA a.roles rn with
      | none => rw [hrl] at hrole; exact absurd hrole (by simp)
      | some role =>
        rw [hrl] at hrole
        exact ⟨usr, rfl, rn, hrn, role, hrl, hrole⟩

/-- A disabled engine with no users at all. -/
def c3Disabled : AclChecker :=
  { enabled := false, users := [], groups := [], roles := [] }

/-- Counterexample for C3 as stated: on a disabled engine `Can` returns
true for a user who does not exist and therefore has no effective role
granting the permission. -/
theorem c3_counterexample :
    Can (some c3Disabled) "bob" "proxy_start" { rules := [] } = true
    ∧ ¬ ∃ usr, findA c3Disabled.users "bob" = some usr ∧
        ∃ rn, rn ∈ c3Disabled.userRoles usr ∧
          ∃ role, findA c3Disabled.roles rn = some role ∧ role.permissions.contains "proxy_start" = true := by
  constructor
  · rfl
  · rintro ⟨usr, husr, _⟩
    simp [findA, c3Disabled] at husr

/-- Enabled engine used to witness C3: carol has role lister granting
proxy_list directly. -/
def c3Checker : AclChecker :=
  { enabled := true
    users := [("carol", { name := "carol", roles := ["lister"], token := "S", groups := [] })]
    groups := []
    roles := [("lister", { name := "lister", permissions := ["proxy_list"] })] }

/-- Witness for C3 (amended): a positive `Can` on the concrete enabled
engine yields the granting effective role. -/
theorem c3_witness :
    ∃ usr, findA c3Checker.users "carol" = some usr ∧
      ∃ rn, rn ∈ c3Checker.userRoles usr ∧
        ∃ role, findA c3Checker.roles rn = some role ∧ role.permissions.contains "proxy_list" = true :=
  c3_can_sound c3Checker rfl "carol" "proxy_list" { rules := [] } (by decide)

/-! ## Configuration model (internal/config and internal/configd)

The two draft config packages share the shapes used by the claims; the
structure below carries the union of their fields. -/

/-- A backend option value as it appears in the YAML `config` maps. -/
inductive CVal
  | str (s : String)
  | num (n : Int)
  | strs (l : List String)
deriving DecidableEq, Repr

/-- `Login` from the config packages. -/
structure Login where
  user : String
  password : String
deriving DecidableEq, Repr

/-- `Host` from the config packages. -/
structure Host where
  address : String
  port : Nat
  login : String
  backend : String
  config : List (String × CVal)
  allowedProxies : List String
deriving DecidableEq, Repr

/-- `Proxy` from the config packages (union of the draft fields). -/
structure Proxy where
  port : Nat
  default : String
  autostart : Bool
  acls : ACLRuleSet
  allowed : List String
  allowedControls : List String
deriving DecidableEq, Repr

/-- `Config` from the config packages: logins, hosts, the proxies block
with its global bind address, and the global per-backend defaults. -/
structure Config where
  logins : List (String × Login)
  hosts : List (String × Host)
  proxiesBind : String
  proxies : List (String × Proxy)
  backends : List (String × List (String × CVal))
deriving DecidableEq, Repr

/-- The backend-name fallback repeated across manager.go and the control
drafts: an empty backend field means ssh_exec. -/
def resolveBackendName (h : Host) : String :=
  if h.backend = "" then "ssh_exec" else h.backend

/-- `mergeConfig` from manager.go: start from the global backend values
and let the host-specific values override them, read as a map. -/
def mergeConfig (global override : List (String × CVal)) : List (String × CVal) :=
  global.filter (fun kv => (findA override kv.1).isNone) ++ override

/-! ## Proxy lifecycle manager (internal/proxy/manager.go)

The manager serialises every StartProxy/StopProxy under a single
transition mutex, so its behaviour is a sequence of atomic steps on the
state below. -/

/-- Runtime state owned by the lifecycle manager and the backend.
`activeHost` is `activeHostByProxy`, `handles` records which names hold
an entry in the `activeProxies` instance map.  `live` and `pids` are the
backend-owned process table.  Modelled from the spec: the consolidated
backend implementation (its `Status`, `Configure`, process table,
`GetInstance` and exit notification) is not in the source tree, only its
callers in manager.go are; per spec section 4.1 a backend tracks the
processes it spawned and `Status(name)` reports running exactly when a
tracked live process exists for `name`, so `Status` is embedded as
`(pids name, live name ≠ 0)`. -/
structure MgrState where
  live : String → Nat
  pids : String → Nat
  activeHost : String → Option String
  handles : String → Bool

/-- Errors surfaced by the manager operations. -/
inductive MErr
  | hostNotFound (host : String)
  | unknownBackend (b : String)
  | configureFailed (name : String)
  | startFailed (name : String)
  | stopFailed (name : String)
deriving DecidableEq, Repr

/-- Result of `StartProxy`: the new state, the returned error, and
whether the backend `Configure` and a successful spawn happened. -/
structure StartOutcome where
  st : MgrState
  res : Except MErr Unit
  configureCalled : Bool
  spawned : Bool

/-- `StartProxy` from manager.go: resolve the default host and its
backend, return success untouched when `Status` already reports running,
call `Configure`, record the active host before `Start`, keep the
active-host entry when `Start` fails, and store the instance handle on
success.  The backend outcomes are the `confOk`/`startOk` arguments. -/
def startProxyM (reg : List String) (cfg : Config) (name : String) (p : Proxy)
    (confOk startOk : Bool) (st : MgrState) : StartOutcome :=
  match findA cfg.hosts p.default with
  | none => ⟨st, .error (.hostNotFound p.default), false, false⟩
  | some hostCfg =>
    match reg.contains (resolveBackendName hostCfg) with
    | false => ⟨st, .error (.unknownBackend (resolveBackendName hostCfg)), false, false⟩
    | true =>
      match st.live name == 0 with
      | false => ⟨st, .ok (), false, false⟩
      | true =>
        match confOk with
        | false => ⟨st, .error (.configureFailed name), true, false⟩
        | true =>
          let st1 : MgrState :=
            { st with activeHost := fun k => if k = name then some p.default else st.activeHost k }
          match startOk with
          | false => ⟨st1, .error (.startFailed name), true, false⟩
          | true =>
            ⟨{ st1 with
                live := fun k => if k = name then st1.live k + 1 else st1.live k
                pids := fun k => if k = name then st1.pids k + 1 else st1.pids k
                handles := fun k => if k = name then true else st1.handles k },
              .ok (), true, true⟩

/-- Result of `StopProxy`. -/
structure StopOutcome where
  st : MgrState
  res : Except MErr Unit

/-- `StopProxy` from manager.go: resolve host and backend, delete the
active-host entry, then call the backend `Stop` (outcome `stopOk`) and
poll until stopped; the deletion is never rolled back. -/
def stopProxyM (reg : List String) (cfg : Config) (name : String) (p : Proxy)
    (stopOk : Bool) (st : MgrState) : StopOutcome :=
  match findA cfg.hosts p.default with
  | none => ⟨st, .error (.hostNotFound p.default)⟩
  | some hostCfg =>
    match reg.contains (resolveBackendName hostCfg) with
    | false => ⟨st, .error (.unknownBackend (resolveBackendName hostCfg))⟩
    | true =>
      let st1 : MgrState :=
        { st with activeHost := fun k => if k = name then none else st.activeHost k }
      match stopOk with
      | false => ⟨st1, .error (.stopFailed name)⟩
      | true => ⟨{ st1 with live := fun k => if k = name then 0 else st1.live k }, .ok ()⟩

/-- One serialized step of the lifecycle manager: an operator or
restart-callback `StartProxy`, a `StopProxy`, or the death of a live
subprocess observed by the backend reaper. -/
inductive MEvent
  | startStep (name : String) (p : Proxy) (confOk startOk : Bool)
  | stopStep (name : String) (p : Proxy) (stopOk : Bool)
  | exitStep (name : String)

/-- The transition function of the lifecycle manager. -/
def mstep (reg : List String) (cfg : Config) (st : MgrState) : MEvent → MgrState
  | .startStep n p c s => (startProxyM reg cfg n p c s st).st
  | .stopStep n p s => (stopProxyM reg cfg n p s st).st
  | .exitStep n => { st with live := fun k => if k = n then st.live k - 1 else st.live k }

/-- The initial manager state: empty maps, no live processes. -/
def mgrInit : MgrState :=
  { live := fun _ => 0, pids := fun _ => 0, activeHost := fun _ => none,
    handles := fun _ => false }

/-- Run a sequence of lifecycle steps. -/
def runTrace (reg : List String) (cfg : Config) (st : MgrState) (evs : List MEvent) : MgrState :=
  evs.foldl (mstep reg cfg) st

/-! ### C1: at most one live tunnel instance per proxy name -/

/-- `StartProxy` spawns only from a not-running status, and then adds
exactly one live process for its own name. -/
theorem startProxyM_spawn_guard (reg : List String) (cfg : Config) (n : String)
    (p : Proxy) (c s : Bool) (st : MgrState)
    (h : (startProxyM reg cfg n p c s st).spawned = true) :
    st.live n = 0 ∧ ∀ m, (startProxyM reg cfg n p c s st).st.live m
      = (if m = n then st.live n + 1 else st.live m) := by
  cases hF : findA cfg.hosts p.default with
  | none =>
    simp only [startProxyM, hF] at h
    exact Bool.noConfusion h
  | some hostCfg =>
    cases hreg : reg.contains (resolveBackendName hostCfg) with
    | false =>
      simp only [startProxyM, hF, hreg] at h
      exact Bool.noConfusion h
    | true =>
      cases hrun : st.live n == 0 with
      | false =>
        simp only [startProxyM, hF, hreg, hrun] at h
        exact Bool.noConfusion h
      | true =>
        have hz : st.live n = 0 := by simpa using hrun
        cases c with
        | false =>
          simp only [startProxyM, hF, hreg, hrun] at h
          exact Bool.noConfusion h
        | true =>
          cases s with
          | false =>
            simp only [startProxyM, hF, hreg, hrun] at h
            exact Bool.noConfusion h
          | true =>
            refine ⟨hz, fun m => ?_⟩
            simp only [startProxyM, hF, hreg, hrun]
            by_cases hm : m = n
            · simp [hm]
            · simp [hm]

/-- When no spawn happened, `StartProxy` leaves the live process table
unchanged. -/
theorem startProxyM_no_spawn (reg : List String) (cfg : Config) (n : String)
    (p : Proxy) (c s : Bool) (st : MgrState)
    (h : (startProxyM reg cfg n p c s st).spawned = false) :
    ∀ m, (startProxyM reg cfg n p c s st).st.live m = st.live m := by
  intro m
  cases hF : findA cfg.hosts p.default with
  | none => simp only [startProxyM, hF]
  | some hostCfg =>
    cases hreg : reg.contains (resolveBackendName hostCfg) with
    | false => simp only [startProxyM, hF, hreg]
    | true =>
      cases hrun : st.live n == 0 with
      | false => simp only [startProxyM, hF, hreg, hrun]
      | true =>
        cases c with
        | false => simp only [startProxyM, hF, hreg, hrun]
        | true =>
          cases s with
          | false => simp only [startProxyM, hF, hreg, hrun]
          | true =>
            simp only [startProxyM, hF, hreg, hrun] at h
            exact Bool.noConfusion h

/-- `StopProxy` never increases the live count. -/
theorem stopProxyM_live_le (reg : List String) (cfg : Config) (n : String)
    (p : Proxy) (s : Bool) (st : MgrState) :
    ∀ m, (stopProxyM reg cfg n p s st).st.live m ≤ st.live m := by
  intro m
  cases hF : findA cfg.hosts p.default with
  | none => simp only [stopProxyM, hF]; exact Nat.le_refl _
  | some hostCfg =>
    cases hreg : reg.contains (resolveBackendName hostCfg) with
    | false => simp only [stopProxyM, hF, hreg]; exact Nat.le_refl _
    | true =>
      cases s with
      | false => simp only [stopProxyM, hF, hreg]; exact Nat.le_refl _
      | true =>
        simp only [stopProxyM, hF, hreg]
        by_cases hm : m = n
        · simp [hm]
        · simp [hm]

/-- Every lifecycle step preserves the at-most-one-live invariant. -/
theorem mstep_live_le (reg : List String) (cfg : Config) (st : MgrState)
    (hinv : ∀ m, st.live m ≤ 1) (ev : MEvent) :
    ∀ m, (mstep reg cfg st ev).live m ≤ 1 := by
  intro m
  cases ev with
  | startStep n p c s =>
    simp only [mstep]
    cases hsp : (startProxyM reg cfg n p c s st).spawned with
    | false => rw [startProxyM_no_spawn reg cfg n p c s st hsp m]; exact hinv m
    | true =>
      obtain ⟨hz, hl⟩ := startProxyM_spawn_guard reg cfg n p c s st hsp
      rw [hl m]
      by_cases hm : m = n
      · simp [hm, hz]
      · simp [hm]; exact hinv m
  | stopStep n p s =>
    exact Nat.le_trans (stopProxyM_live_le reg cfg n p s st m) (hinv m)
  | exitStep n =>
    simp only [mstep]
    by_cases hm : m = n
    · rw [if_pos hm]
      exact Nat.le_trans (Nat.sub_le _ _) (hinv m)
    · rw [if_neg hm]
      exact hinv m

/-- The at-most-one-live invariant holds along every trace from an
invariant state. -/
theorem runTrace_live_le (reg : List String) (cfg : Config) :
    ∀ (evs : List MEvent) (st : MgrState), (∀ m, st.live m ≤ 1) →
      ∀ m, (runTrace reg cfg st evs).live m ≤ 1 := by
  intro evs
  induction evs with
  | nil => intro st hinv m; exact hinv m
  | cons ev rest ih =>
    intro st hinv m
    exact ih (mstep reg cfg st ev) (mstep_live_le reg cfg st hinv ev) m

/-- C1: at every state reachable by StartProxy, StopProxy and
restart-callback steps, each proxy name has at most one live backend
subprocess and at most one tracked `RunningInstance` handle; and a
`StartProxy` step spawns only when the backend status for the name
reports not running. -/
theorem c1_at_most_one_instance (reg : List String) (cfg : Config)
    (evs : List MEvent) (n : String) :
    (runTrace reg cfg mgrInit evs).live n ≤ 1
    ∧ (if (runTrace reg cfg mgrInit evs).handles n then 1 else 0) ≤ 1
    ∧ (∀ (st : MgrState) (p : Proxy) (c s : Bool),
        (startProxyM reg cfg n p c s st).spawned = true → st.live n = 0) := by
  refine ⟨?_, ?_, ?_⟩
  · exact runTrace_live_le reg cfg evs mgrInit (fun m => Nat.zero_le 1) n
  · split <;> simp
  · intro st p c s h
    exact (startProxyM_spawn_guard reg cfg n p c s st h).1

/-! ### C5: StartProxy idempotence on a running proxy -/

/-- Count a Bool as a Nat, for counting spawns. -/
def b2n (b : Bool) : Nat := if b then 1 else 0

/-- A spawn in a successful start sets the live count of the started
name to one more than before. -/
theorem startProxyM_spawned_live (reg : List String) (cfg : Config) (n : String)
    (p : Proxy) (c s : Bool) (st : MgrState)
    (h : (startProxyM reg cfg n p c s st).spawned = true) :
    (startProxyM reg cfg n p c s st).st.live n = st.live n + 1 := by
  have := (startProxyM_spawn_guard reg cfg n p c s st h).2 n
  simpa using this

/-- C5: when host and backend resolution succeed and the backend status
for the name reports running, `StartProxy` returns success with the
state untouched and neither `Configure` nor `Start` called; and two
consecutive `StartProxy` calls for the same name, whatever the backend
outcomes, produce at most one spawn. -/
theorem c5_start_idempotent (reg : List String) (cfg : Config) (name : String)
    (p : Proxy) (c1 s1 c2 s2 : Bool) (st : MgrState)
    (hres : ∃ hc, findA cfg.hosts p.default = some hc
      ∧ reg.contains (resolveBackendName hc) = true) :
    (st.live name ≠ 0 →
      startProxyM reg cfg name p c1 s1 st = ⟨st, .ok (), false, false⟩)
    ∧ b2n (startProxyM reg cfg name p c1 s1 st).spawned
      + b2n ((startProxyM reg cfg name p c2 s2
          (startProxyM reg cfg name p c1 s1 st).st).spawned) ≤ 1 := by
  obtain ⟨hc, hfind, hreg⟩ := hres
  constructor
  · intro hrun
    have hrunb : (st.live name == 0) = false := by simpa using hrun
    simp only [startProxyM, hfind, hreg, hrunb]
  · cases hsp1 : (startProxyM reg cfg name p c1 s1 st).spawned with
    | false =>
      simp only [b2n, hsp1, if_false]
      cases hsp2 : (startProxyM reg cfg name p c2 s2
          (startProxyM reg cfg name p c1 s1 st).st).spawned <;> simp
    | true =>
      have hl := startProxyM_spawned_live reg cfg name p c1 s1 st hsp1
      have hrun2 : (startProxyM reg cfg name p c1 s1 st).st.live name ≠ 0 := by
        rw [hl]; exact Nat.succ_ne_zero _
      have hrunb2 : ((startProxyM reg cfg name p c1 s1 st).st.live name == 0) = false := by
        simpa using hrun2
      have hsp2 : (startProxyM reg cfg name p c2 s2
          (startProxyM reg cfg name p c1 s1 st).st).spawned = false := by
        generalize hgen : (startProxyM reg cfg name p c1 s1 st).st = st2 at hrunb2 ⊢
        simp only [startProxyM, hfind, hreg, hrunb2]
      simp [b2n, hsp1, hsp2]

/-- Host used by the concrete manager scenarios; the empty backend field
resolves to ssh_exec. -/
def mgrHost : Host :=
  { address := "h1.example", port := 22, login := "l1", backend := "",
    config := [], allowedProxies := [] }

/-- Proxy definition used by the concrete manager scenarios. -/
def mgrProxy : Proxy :=
  { port := 1080, default := "h1", autostart := false, acls := { rules := [] },
    allowed := [], allowedControls := [] }

/-- Config used by the concrete manager scenarios. -/
def mgrCfg : Config :=
  { logins := [("l1", { user := "u", password := "pw" })],
    hosts := [("h1", mgrHost)],
    proxiesBind := "127.0.0.1",
    proxies := [("p1", mgrProxy)],
    backends := [] }

/-- A state in which p1 already has one live subprocess. -/
def mgrRunningSt : MgrState :=
  { live := fun k => if k = "p1" then 1 else 0,
    pids := fun k => if k = "p1" then 41 else 0,
    activeHost := fun k => if k = "p1" then some "h1" else none,
    handles := fun k => k = "p1" }

/-- Witness for C5: on the concrete running state, `StartProxy` is a
no-op success without Configure or Start. -/
theorem c5_witness :
    startProxyM ["ssh_exec"] mgrCfg "p1" mgrProxy true true mgrRunningSt
      = ⟨mgrRunningSt, .ok (), false, false⟩ :=
  (c5_start_idempotent ["ssh_exec"] mgrCfg "p1" mgrProxy true true true true
    mgrRunningSt ⟨mgrHost, by decide, by decide⟩).1 (by decide)

/-! ### C10: StopProxy and the active-host entry -/

/-- C10 (amended): whenever host and backend resolution succeed,
`StopProxy` deletes the active-host entry for the name before calling
the backend `Stop`, and the deletion survives a `Stop` error; when
resolution fails, `StopProxy` errors out without touching the entry. -/
theorem c10_stop_clears_entry (reg : List String) (cfg : Config) (name : String)
    (p : Proxy) (stopOk : Bool) (st : MgrState)
    (hres : ∃ hc, findA cfg.hosts p.default = some hc
      ∧ reg.contains (resolveBackendName hc) = true) :
    (stopProxyM reg cfg name p stopOk st).st.activeHost name = none := by
  obtain ⟨hc, hfind, hreg⟩ := hres
  cases stopOk <;> (simp only [stopProxyM, hfind, hreg]; simp)

/-- A config whose host table is empty, so StopProxy resolution fails. -/
def c10BadCfg : Config :=
  { logins := [], hosts := [], proxiesBind := "127.0.0.1",
    proxies := [("p1", mgrProxy)], backends := [] }

/-- Counterexample for C10 as stated: when the default host is not in
the config, `StopProxy` returns an error and the active-host entry for
the proxy is still there. -/
theorem c10_counterexample :
    (stopProxyM ["ssh_exec"] c10BadCfg "p1" mgrProxy true mgrRunningSt).st.activeHost "p1"
      = some "h1"
    ∧ (stopProxyM ["ssh_exec"] c10BadCfg "p1" mgrProxy true mgrRunningSt).res
      = .error (.hostNotFound "h1") := by
  constructor <;> rfl

/-- Witness for C10 (amended): on the concrete state the entry is gone
after `StopProxy` even though the backend `Stop` failed. -/
theorem c10_witness :
    (stopProxyM ["ssh_exec"] mgrCfg "p1" mgrProxy false mgrRunningSt).st.activeHost "p1"
      = none :=
  c10_stop_clears_entry ["ssh_exec"] mgrCfg "p1" mgrProxy false mgrRunningSt
    ⟨mgrHost, by decide, by decide⟩

/-! ## Host-fallback StartProxy (the config-variant proxy package draft) -/

/-- Errors surfaced by the fallback StartProxy. -/
inductive FbErr
  | noDefault (name : String)
  | hostNotFound (host : String)
  | unknownBackend (b : String)
  | allFailed (name : String) (last : Option String)
deriving DecidableEq, Repr

/-- Result of the fallback StartProxy: the hosts attempted in order, the
active-host entry recorded (none when the map was untouched), and the
returned error. -/
structure FbOutcome where
  attempted : List String
  recorded : Option String
  res : Except FbErr Unit
deriving Repr

/-- The seen-set loop of the fallback StartProxy building the host
order: iterate the allowed hosts, appending each one not seen yet. -/
def addAllowed : List String → List String → List String → List String
  | [], th, _ => th
  | h :: rest, th, seen =>
    if h ∈ seen then addAllowed rest th seen
    else addAllowed rest (th ++ [h]) (seen ++ [h])

/-- `tryHosts` from the fallback StartProxy: the default host first when
non-empty, then the allowed hosts without duplication. -/
def buildTryHosts (dflt : String) (allowed : List String) : List String :=
  match dflt == "" with
  | true => addAllowed allowed [] []
  | false => addAllowed allowed [dflt] [dflt]

/-- The attempt loop of the fallback StartProxy: `att h` is the backend
Start outcome on host `h` (`none` is success).  Returns the attempted
hosts in order and either the winning host or the propagated last
error. -/
def tryHostsRun (att : String → Option String) :
    List String → Option String → List String × Except (Option String) String
  | [], lastErr => ([], .error lastErr)
  | h :: rest, _ =>
    match att h with
    | none => ([h], .ok h)
    | some e =>
      let r := tryHostsRun att rest (some e)
      (h :: r.1, r.2)

/-- `StartProxy` from the config-variant proxy draft: reject an empty
default, resolve the default host and its backend, build the ordered
host sequence, attempt each in turn, record the first winner in the
active-host map, and return an aggregate error naming the last backend
error when every attempt failed (the map stays untouched then). -/
def startProxyFB (reg : List String) (att : String → Option String)
    (cfg : Config) (name : String) (p : Proxy) : FbOutcome :=
  match p.default == "" with
  | true => ⟨[], none, .error (.noDefault name)⟩
  | false =>
    match findA cfg.hosts p.default with
    | none => ⟨[], none, .error (.hostNotFound p.default)⟩
    | some hostCfg =>
      match reg.contains (resolveBackendName hostCfg) with
      | false => ⟨[], none, .error (.unknownBackend (resolveBackendName hostCfg))⟩
      | true =>
        match tryHostsRun att (buildTryHosts p.default p.allowed) none with
        | (as, .ok h) => ⟨as, some h, .ok ()⟩
        | (as, .error last) => ⟨as, none, .error (.allFailed name last)⟩

/-- First-seen-order deduplication, following the words of the spec
sentence on the host-fallback variant: the comparison definition for
the ordered sequence with duplicates removed in first-seen order. -/
def dedupFS : List String → List String → List String
  | [], _ => []
  | h :: t, seen => if h ∈ seen then dedupFS t seen else h :: dedupFS t (h :: seen)

/-- The first host in the list on which the backend Start succeeds. -/
def firstSucc (att : String → Option String) : List String → Option String
  | [] => none
  | h :: t =>
    match att h with
    | none => some h
    | some _ => firstSucc att t

/-- The prefix of hosts the loop attempts: everything up to and
including the first success, or the whole list. -/
def attemptsOf (att : String → Option String) : List String → List String
  | [] => []
  | h :: t =>
    match att h with
    | none => [h]
    | some _ => h :: attemptsOf att t

/-- The seen-set loop refines the first-seen deduplication. -/
theorem addAllowed_eq_dedupFS (al : List String) :
    ∀ (th seen1 seen2 : List String), (∀ x, x ∈ seen1 ↔ x ∈ seen2) →
      addAllowed al th seen1 = th ++ dedupFS al seen2 := by
  induction al with
  | nil => intro th s1 s2 _; simp [addAllowed, dedupFS]
  | cons h t ih =>
    intro th s1 s2 hmem
    by_cases hc : h ∈ s1
    · simp only [addAllowed, dedupFS, if_pos hc, if_pos ((hmem h).mp hc)]
      exact ih th s1 s2 hmem
    · have hc2 : h ∉ s2 := fun hx => hc ((hmem h).mpr hx)
      simp only [addAllowed, dedupFS, if_neg hc, if_neg hc2]
      rw [ih (th ++ [h]) (s1 ++ [h]) (h :: s2) ?_]
      · simp
      · intro x
        simp only [List.mem_append, List.mem_cons, List.mem_singleton]
        rw [hmem x]
        tauto

/-- With a non-empty default, the built host order is exactly the
first-seen deduplication of default followed by allowed. -/
theorem buildTryHosts_eq (d : String) (al : List String) (hd : d ≠ "") :
    buildTryHosts d al = dedupFS (d :: al) [] := by
  have hdb : (d == "") = false := by simpa using hd
  simp only [buildTryHosts, hdb]
  rw [addAllowed_eq_dedupFS al [d] [d] [d] (fun x => Iff.rfl)]
  simp only [dedupFS]
  rw [if_neg (by simp)]
  simp

/-- When some host succeeds, the attempt loop stops at the first one and
reports it. -/
theorem tryHostsRun_success (att : String → Option String) :
    ∀ (l : List String) (h : String), firstSucc att l = some h →
      ∀ le, tryHostsRun att l le = (attemptsOf att l, .ok h) := by
  intro l
  induction l with
  | nil => intro h hf le; simp [firstSucc] at hf
  | cons x t ih =>
    intro h hf le
    cases hx : att x with
    | none =>
      simp only [firstSucc, hx] at hf
      cases hf
      simp [tryHostsRun, attemptsOf, hx]
    | some e =>
      simp only [firstSucc, hx] at hf
      simp only [tryHostsRun, attemptsOf, hx]
      rw [ih h hf (some e)]

/-- When every host fails, the attempt loop visits all of them and
propagates the error of the last one. -/
theorem tryHostsRun_allfail (att : String → Option String) :
    ∀ (l : List String), firstSucc att l = none → l ≠ [] →
      ∀ le, ∃ lastH e, l.getLast? = some lastH ∧ att lastH = some e ∧
        tryHostsRun att l le = (l, .error (some e)) := by
  intro l
  induction l with
  | nil => intro _ hne; exact absurd rfl hne
  | cons x t ih =>
    intro hf _ le
    cases hx : att x with
    | none => simp [firstSucc, hx] at hf
    | some e =>
      simp only [firstSucc, hx] at hf
      cases t with
      | nil =>
        refine ⟨x, e, by simp, hx, ?_⟩
        simp [tryHostsRun, hx]
      | cons y t2 =>
        obtain ⟨lastH, e2, hlast, hatt, hrun⟩ := ih hf (by simp) (some e)
        refine ⟨lastH, e2, ?_, hatt, ?_⟩
        · rw [List.getLast?_cons_cons]
          exact hlast
        · have hstep : tryHostsRun att (x :: y :: t2) le
              = (x :: (tryHostsRun att (y :: t2) (some e)).1,
                 (tryHostsRun att (y :: t2) (some e)).2) := by
            rw [tryHostsRun, hx]
          rw [hstep, hrun]

/-- All attempts failing means the loop attempted the whole list. -/
theorem attemptsOf_allfail (att : String → Option String) :
    ∀ l, firstSucc att l = none → attemptsOf att l = l := by
  intro l
  induction l with
  | nil => intro _; rfl
  | cons x t ih =>
    intro hf
    cases hx : att x with
    | none => simp [firstSucc, hx] at hf
    | some e =>
      simp only [firstSucc, hx] at hf
      simp only [attemptsOf, hx]
      rw [ih hf]

/-- C6: with a non-empty, resolvable default host, the fallback
StartProxy attempts hosts in the order default-then-allowed with
duplicates removed first-seen; it stops at the first host whose backend
Start succeeds and records that host as active; and when every attempt
fails it returns the aggregate error carrying the error of the last
attempted host and records no active-host entry. -/
theorem c6_host_fallback (reg : List String) (att : String → Option String)
    (cfg : Config) (name : String) (p : Proxy)
    (hd : p.default ≠ "")
    (hres : ∃ hc, findA cfg.hosts p.default = some hc
      ∧ reg.contains (resolveBackendName hc) = true) :
    buildTryHosts p.default p.allowed = dedupFS (p.default :: p.allowed) []
    ∧ (startProxyFB reg att cfg name p).attempted
        = attemptsOf att (buildTryHosts p.default p.allowed)
    ∧ (∀ h, firstSucc att (buildTryHosts p.default p.allowed) = some h →
        (startProxyFB reg att cfg name p).res = .ok ()
        ∧ (startProxyFB reg att cfg name p).recorded = some h)
    ∧ (firstSucc att (buildTryHosts p.default p.allowed) = none →
        ∃ lastH e, (buildTryHosts p.default p.allowed).getLast? = some lastH
          ∧ att lastH = some e
          ∧ (startProxyFB reg att cfg name p).res = .error (.allFailed name (some e))
          ∧ (startProxyFB reg att cfg name p).recorded = none) := by
  obtain ⟨hc, hfind, hreg⟩ := hres
  have hdb : (p.default == "") = false := by simpa using hd
  have hne : buildTryHosts p.default p.allowed ≠ [] := by
    rw [buildTryHosts_eq p.default p.allowed hd]
    simp [dedupFS]
  refine ⟨buildTryHosts_eq p.default p.allowed hd, ?_, ?_, ?_⟩
  · cases hS : firstSucc att (buildTryHosts p.default p.allowed) with
    | some h =>
      simp only [startProxyFB, hdb, hfind, hreg]
      rw [tryHostsRun_success att _ h hS none]
    | none =>
      obtain ⟨lastH, e, hlast, hatt, hrun⟩ :=
        tryHostsRun_allfail att _ hS hne none
      simp only [startProxyFB, hdb, hfind, hreg]
      rw [hrun]
      exact (attemptsOf_allfail att _ hS).symm
  · intro h hS
    simp only [startProxyFB, hdb, hfind, hreg]
    rw [tryHostsRun_success att _ h hS none]
    exact ⟨rfl, rfl⟩
  · intro hS
    obtain ⟨lastH, e, hlast, hatt, hrun⟩ :=
      tryHostsRun_allfail att _ hS hne none
    refine ⟨lastH, e, hlast, hatt, ?_, ?_⟩ <;>
      simp only [startProxyFB, hdb, hfind, hreg, hrun]

/-- Backend Start outcomes used to witness C6: h1 fails, h2 succeeds. -/
def c6Att (h : String) : Option String :=
  if h = "h1" then some "connection refused" else none

/-- Proxy used to witness C6: default h1, allowed lists h2 and then h1
again so deduplication matters. -/
def c6Proxy : Proxy :=
  { port := 1080, default := "h1", autostart := false, acls := { rules := [] },
    allowed := ["h2", "h1"], allowedControls := [] }

/-- Witness for C6: on the concrete scenario the fallback start skips
the failing default, wins on h2 and records it. -/
theorem c6_witness :
    (startProxyFB ["ssh_exec"] c6Att mgrCfg "p1" c6Proxy).res = .ok ()
    ∧ (startProxyFB ["ssh_exec"] c6Att mgrCfg "p1" c6Proxy).recorded = some "h2" :=
  (c6_host_fallback ["ssh_exec"] c6Att mgrCfg "p1" c6Proxy (by decide)
    ⟨mgrHost, by decide, by decide⟩).2.2.1 "h2" (by decide)

/-! ## SSH external-command backend (internal/backend/ssh_exec.go) -/

/-- Errors of the ssh_exec Start. -/
inductive SshErr
  | hostNotFound (host : String) (name : String)
  | loginNotFound (login : String) (host : String)
deriving DecidableEq, Repr

/-- The argv of the command spawned by `sshExecBackend.Start` in
ssh_exec.go: resolve host and login from the config and assemble the
fixed sshpass/ssh command line.  The function ignores the global
`cfg.backends` map and the host-local `config` map, exactly as the
source does. -/
def sshExecStartArgv (cfg : Config) (name : String) (p : Proxy) :
    Except SshErr (List String) :=
  match findA cfg.hosts p.default with
  | none => .error (.hostNotFound p.default name)
  | some host =>
    match findA cfg.logins host.login with
    | none => .error (.loginNotFound host.login p.default)
    | some login =>
      let localAddr := cfg.proxiesBind ++ ":" ++ toString p.port
      let remoteAddr := login.user ++ "@" ++ host.address
      .ok ["sshpass", "-p", login.password, "ssh", "-N",
        "-oStrictHostKeyChecking=no", "-oUserKnownHostsFile=/dev/null",
        "-oConnectTimeout=5", "-D", localAddr, remoteAddr]

/-- The host of the ssh backend scenario, carrying the host-local
option map. -/
def c8Host (hopts : List (String × CVal)) : Host :=
  { address := "a.example", port := 22, login := "l1",
    backend := "ssh_exec", config := hopts, allowedProxies := [] }

/-- A config for the ssh backend scenario, parameterised by the global
ssh_exec backend options and the host-local option map. -/
def c8Cfg (bopts hopts : List (String × CVal)) : Config :=
  { logins := [("l1", { user := "u", password := "pw" })],
    hosts := [("h1", c8Host hopts)],
    proxiesBind := "127.0.0.1",
    proxies := [],
    backends := [("ssh_exec", bopts)] }

/-- The proxy of the ssh backend scenario. -/
def c8Proxy : Proxy :=
  { port := 1080, default := "h1", autostart := false, acls := { rules := [] },
    allowed := [], allowedControls := [] }

/-- Backend options setting every key the claim says is recognized. -/
def c8Opts : List (String × CVal) :=
  [("connect_timeout", .num 9), ("ssh_binary", .str "ssh2"),
   ("sshpass_binary", .str "sshpass2"),
   ("additional_flags", .strs ["-oExitOnForwardFailure=yes"])]

/-- The command line the source builds, whatever the options say. -/
def c8FixedArgv : List String :=
  ["sshpass", "-p", "pw", "ssh", "-N", "-oStrictHostKeyChecking=no",
   "-oUserKnownHostsFile=/dev/null", "-oConnectTimeout=5", "-D",
   "127.0.0.1:1080", "u@a.example"]

/-- C8: the ssh_exec Start builds the same fixed command line for every
choice of global and host-local backend options; in particular, with
connect_timeout 9, ssh_binary ssh2, sshpass_binary sshpass2 and an
additional_flags entry all configured (and merged), none of the
configured values appears in the spawned command line, which keeps the
defaults instead. -/
theorem c8_ssh_options_ignored :
    (∀ bopts hopts, sshExecStartArgv (c8Cfg bopts hopts) "pp" c8Proxy = .ok c8FixedArgv)
    ∧ findA (mergeConfig c8Opts c8Opts) "ssh_binary" = some (.str "ssh2")
    ∧ findA (mergeConfig c8Opts c8Opts) "connect_timeout" = some (.num 9)
    ∧ c8FixedArgv.contains "ssh2" = false
    ∧ c8FixedArgv.contains "sshpass2" = false
    ∧ c8FixedArgv.contains "-oExitOnForwardFailure=yes" = false
    ∧ c8FixedArgv.contains "-oConnectTimeout=9" = false
    ∧ c8FixedArgv.contains "-oConnectTimeout=5" = true := by
  refine ⟨fun bopts hopts => ?_, by decide, by decide, by decide, by decide,
    by decide, by decide, by decide⟩
  rfl

/-! ## Wire protocol (protocol/protocol.go) -/

/-- `Auth` from protocol.go. -/
structure Auth where
  user : String
  token : String
deriving DecidableEq, Repr

/-- The payload fields the handlers decode from `Request.Data`; the
JSON decoding of decodePayload is embedded as direct field access, with
the Go zero value for absent fields. -/
structure ReqData where
  name : String
  host : String
  aliasName : String
deriving DecidableEq, Repr

/-- `Request` from protocol.go. -/
structure Request where
  type : String
  auth : Option Auth
  data : ReqData
deriving DecidableEq, Repr

/-- `StatusResponse` from protocol.go. -/
structure StatusResponse where
  name : String
  backend : String
  running : Bool
  pid : Nat
  activeHost : String
deriving DecidableEq, Repr

/-- `InfoResponse` from protocol.go. -/
structure InfoResponse where
  name : String
  backend : String
  host : String
  port : Nat
  login : String
  running : Bool
  pid : Nat
  allowed : List String
  activeHost : String
deriving DecidableEq, Repr

/-- The result payloads carried in `Response.Data`. -/
inductive RespData
  | statusD (s : StatusResponse)
  | infoD (i : InfoResponse)
  | listD (proxies : List String)
  | resolvD (host : String) (port : Nat)
deriving DecidableEq, Repr

/-- `Response` from protocol.go; an absent error is the empty string
(omitempty). -/
structure Response where
  status : String
  rdata : Option RespData
  error : String
deriving DecidableEq, Repr

/-- An error response, as the handlers build them. -/
def errResp (msg : String) : Response := ⟨"error", none, msg⟩

/-- An ok response with an optional payload. -/
def okResp (d : Option RespData) : Response := ⟨"ok", d, ""⟩

/-- `extractUser` from launch.go / ipc.go: the auth user, or the fixed
principal when the auth block is absent. -/
def extractUser (req : Request) : String :=
  match req.auth with
  | some a => a.user
  | none => "unauthenticated"

/-! ## Manager read accessors (internal/proxy/manager.go) -/

/-- The error strings the handlers surface (err.Error() in Go). -/
def merrMsg : MErr → String
  | .hostNotFound h => "host " ++ h ++ " not found"
  | .unknownBackend b => "unknown backend " ++ b
  | .configureFailed n => "backend configure failed for " ++ n
  | .startFailed n => "start failed for " ++ n
  | .stopFailed n => "stop failed for " ++ n

/-- `GetProxyStatus` from manager.go: resolve host and backend, read the
backend status and the active-host map. -/
def getProxyStatusM (reg : List String) (cfg : Config) (name : String) (p : Proxy)
    (st : MgrState) : Except MErr StatusResponse :=
  match findA cfg.hosts p.default with
  | none => .error (.hostNotFound p.default)
  | some hostCfg =>
    match reg.contains (resolveBackendName hostCfg) with
    | false => .error (.unknownBackend (resolveBackendName hostCfg))
    | true =>
      .ok { name := name, backend := resolveBackendName hostCfg,
            running := st.live name != 0, pid := st.pids name,
            activeHost := (st.activeHost name).getD "" }

/-- `GetProxyInfo` from manager.go: the status data plus static host
attributes and the allowed control users. -/
def getProxyInfoM (reg : List String) (cfg : Config) (name : String) (p : Proxy)
    (st : MgrState) : Except MErr InfoResponse :=
  match findA cfg.hosts p.default with
  | none => .error (.hostNotFound p.default)
  | some hostCfg =>
    match reg.contains (resolveBackendName hostCfg) with
    | false => .error (.unknownBackend (resolveBackendName hostCfg))
    | true =>
      .ok { name := name, backend := resolveBackendName hostCfg,
            host := hostCfg.address, port := hostCfg.port, login := hostCfg.login,
            running := st.live name != 0, pid := st.pids name,
            allowed := p.allowedControls,
            activeHost := (st.activeHost name).getD "" }

/-! ## Control handlers (cmd/geistctl/cmd/launch.go, package control) -/

/-- The handler shape of dispatch/dispatcher.go, with the lifecycle
manager state made explicit. -/
def Handler : Type := MgrState → Request → MgrState × Response

/-- `StartProxyHandler` from launch.go: decode the name, look up the
proxy, check `acl.Can` with permission proxy_list (sic, as the source
does), then run `StartProxy`. -/
def startProxyHandler (reg : List String) (acls : Option AclChecker) (cfg : Config)
    (confOk startOk : Bool) : Handler := fun st req =>
  match findA cfg.proxies req.data.name with
  | none => (st, errResp "unknown proxy")
  | some proxyCfg =>
    match Can acls (extractUser req) "proxy_list" proxyCfg.acls with
    | false => (st, errResp "not allowed")
    | true =>
      let o := startProxyM reg cfg req.data.name proxyCfg confOk startOk st
      match o.res with
      | .error e => (o.st, errResp (merrMsg e))
      | .ok _ => (o.st, okResp none)

/-- `StopProxyHandler` from launch.go, checking permission proxy_list
(sic). -/
def stopProxyHandler (reg : List String) (acls : Option AclChecker) (cfg : Config)
    (stopOk : Bool) : Handler := fun st req =>
  match findA cfg.proxies req.data.name with
  | none => (st, errResp "unknown proxy")
  | some proxyCfg =>
    match Can acls (extractUser req) "proxy_list" proxyCfg.acls with
    | false => (st, errResp "not allowed")
    | true =>
      let o := stopProxyM reg cfg req.data.name proxyCfg stopOk st
      match o.res with
      | .error e => (o.st, errResp (merrMsg e))
      | .ok _ => (o.st, okResp none)

/-- `ProxyStatusHandler` from launch.go, checking permission proxy_list
(sic). -/
def proxyStatusHandler (reg : List String) (acls : Option AclChecker)
    (cfg : Config) : Handler := fun st req =>
  match findA cfg.proxies req.data.name with
  | none => (st, errResp "unknown proxy")
  | some proxyCfg =>
    match Can acls (extractUser req) "proxy_list" proxyCfg.acls with
    | false => (st, errResp "not allowed")
    | true =>
      match getProxyStatusM reg cfg req.data.name proxyCfg st with
      | .error e => (st, errResp (merrMsg e))
      | .ok s => (st, okResp (some (.statusD s)))

/-- `ProxyListHandler` from launch.go: a global proxy_list check, then
all configured proxy names. -/
def proxyListHandler (acls : Option AclChecker) (cfg : Config) : Handler :=
  fun st req =>
  match Can acls (extractUser req) "proxy_list" { rules := [] } with
  | false => (st, errResp "not allowed")
  | true => (st, okResp (some (.listD (cfg.proxies.map (fun kv => kv.1)))))

/-- `ProxyInfoHandler` from launch.go, checking permission proxy_info. -/
def proxyInfoHandler (reg : List String) (acls : Option AclChecker)
    (cfg : Config) : Handler := fun st req =>
  match findA cfg.proxies req.data.name with
  | none => (st, errResp "unknown proxy")
  | some proxyCfg =>
    match Can acls (extractUser req) "proxy_info" proxyCfg.acls with
    | false => (st, errResp "not allowed")
    | true =>
      match getProxyInfoM reg cfg req.data.name proxyCfg st with
      | .error e => (st, errResp (merrMsg e))
      | .ok i => (st, okResp (some (.infoD i)))

/-- `ProxySetActiveHandler` from launch.go: permission proxy_setactive,
the target host must exist, then StopProxy (error ignored) and
StartProxy with the mutated default. -/
def proxySetActiveHandler (reg : List String) (acls : Option AclChecker)
    (cfg : Config) (confOk startOk stopOk : Bool) : Handler := fun st req =>
  match findA cfg.proxies req.data.name with
  | none => (st, errResp "unknown proxy")
  | some proxyCfg =>
    match Can acls (extractUser req) "proxy_setactive" proxyCfg.acls with
    | false => (st, errResp "not allowed")
    | true =>
      match findA cfg.hosts req.data.host with
      | none => (st, errResp "unknown host")
      | some _ =>
        let p2 := { proxyCfg with default := req.data.host }
        let stopped := stopProxyM reg cfg req.data.name p2 stopOk st
        let o := startProxyM reg cfg req.data.name p2 confOk startOk stopped.st
        match o.res with
        | .error e => (o.st, errResp (merrMsg e))
        | .ok _ => (o.st, okResp none)

/-- `ResolveProxyHandler` from launch.go: permission proxy_resolve, then
the daemon bind address and the proxy port. -/
def resolveProxyHandler (acls : Option AclChecker) (cfg : Config) : Handler :=
  fun st req =>
  match findA cfg.proxies req.data.aliasName with
  | none => (st, errResp "unknown proxy")
  | some proxyCfg =>
    match Can acls (extractUser req) "proxy_resolve" proxyCfg.acls with
    | false => (st, errResp "not allowed")
    | true => (st, okResp (some (.resolvD cfg.proxiesBind proxyCfg.port)))

/-! ## Dispatcher (dispatch/dispatcher.go) -/

/-- `Dispatcher.Dispatch`: look up the handler for the request type;
unknown commands produce the error response. -/
def dispatch (table : List (String × Handler)) (st : MgrState) (req : Request) :
    MgrState × Response :=
  match findA table req.type with
  | none => (st, errResp "unknown command")
  | some h => h st req

/-- The control handler table built from the launch.go handler family.
Modelled from the spec: the daemon main registering these handlers is
not in the source tree (only earlier draft mains are); per spec section
4.4 the dispatcher maps the proxy commands to these handlers. -/
def launchTable (reg : List String) (acls : Option AclChecker) (cfg : Config)
    (confOk startOk stopOk : Bool) : List (String × Handler) :=
  [("proxy.start", startProxyHandler reg acls cfg confOk startOk),
   ("proxy.stop", stopProxyHandler reg acls cfg stopOk),
   ("proxy.status", proxyStatusHandler reg acls cfg),
   ("proxy.list", proxyListHandler acls cfg),
   ("proxy.info", proxyInfoHandler reg acls cfg),
   ("proxy.setactive", proxySetActiveHandler reg acls cfg confOk startOk stopOk),
   ("proxy.resolve", resolveProxyHandler acls cfg)]

/-! ## Control server (internal/control/server.go) -/

/-- A control login entry (cfg.Control.Logins). -/
structure CtlLogin where
  token : String
deriving DecidableEq, Repr

/-- `Authenticate` from server.go: when the instance does not require
auth, the fixed principal unauthenticated; otherwise require an auth
block whose token equals the configured control login token. -/
def ctlAuthenticate (logins : List (String × CtlLogin)) (req : Request)
    (required : Bool) : Option String :=
  match required with
  | false => some "unauthenticated"
  | true =>
    match req.auth with
    | none => none
    | some a =>
      match findA logins a.user with
      | none => none
      | some entry => if entry.token == a.token then some a.user else none

/-- The per-request processing of handleConn in server.go: authenticate,
substitute the authenticated user into the request auth block (creating
an empty one when absent, keeping the client token field as is), then
dispatch. -/
def handleRequest (logins : List (String × CtlLogin))
    (table : List (String × Handler)) (authEnabled : Bool) (st : MgrState)
    (req : Request) : MgrState × Response :=
  match ctlAuthenticate logins req authEnabled with
  | none => (st, errResp "invalid credentials")
  | some user =>
    let a0 := req.auth.getD { user := "", token := "" }
    dispatch table st { req with auth := some { a0 with user := user } }

/-! ### C9: noninterference of client identity when auth is disabled -/

/-- Dispatch over the launch handler table never depends on the token
field of a non-nil auth block. -/
theorem launch_dispatch_token_indep (reg : List String) (acls : Option AclChecker)
    (cfg : Config) (c s s2 : Bool) (st : MgrState) (ty : String) (d : ReqData)
    (u t1 t2 : String) :
    dispatch (launchTable reg acls cfg c s s2) st
      { type := ty, auth := some { user := u, token := t1 }, data := d }
    = dispatch (launchTable reg acls cfg c s s2) st
      { type := ty, auth := some { user := u, token := t2 }, data := d } := by
  simp only [dispatch, launchTable, findA]
  by_cases h1 : "proxy.start" = ty
  · simp only [if_pos h1]; rfl
  · simp only [if_neg h1]
    by_cases h2 : "proxy.stop" = ty
    · simp only [if_pos h2]; rfl
    · simp only [if_neg h2]
      by_cases h3 : "proxy.status" = ty
      · simp only [if_pos h3]; rfl
      · simp only [if_neg h3]
        by_cases h4 : "proxy.list" = ty
        · simp only [if_pos h4]; rfl
        · simp only [if_neg h4]
          by_cases h5 : "proxy.info" = ty
          · simp only [if_pos h5]; rfl
          · simp only [if_neg h5]
            by_cases h6 : "proxy.setactive" = ty
            · simp only [if_pos h6]; rfl
            · simp only [if_neg h6]
              by_cases h7 : "proxy.resolve" = ty
              · simp only [if_pos h7]; rfl
              · simp only [if_neg h7]

/-- C9: on a control instance with authentication disabled, the server
replaces the auth user with the fixed principal unauthenticated before
dispatching, and therefore two requests differing only in their auth
block (user and token) produce the same manager state and the same
response. -/
theorem c9_noninterference (reg : List String) (acls : Option AclChecker)
    (cfg : Config) (logins : List (String × CtlLogin))
    (confOk startOk stopOk : Bool) (st : MgrState)
    (ty : String) (d : ReqData) (a1 a2 : Option Auth) :
    (handleRequest logins (launchTable reg acls cfg confOk startOk stopOk) false st
      { type := ty, auth := a1, data := d }
      = dispatch (launchTable reg acls cfg confOk startOk stopOk) st
        { type := ty,
          auth := some (Auth.mk "unauthenticated" (a1.getD (Auth.mk "" "")).token),
          data := d })
    ∧ handleRequest logins (launchTable reg acls cfg confOk startOk stopOk) false st
      { type := ty, auth := a1, data := d }
    = handleRequest logins (launchTable reg acls cfg confOk startOk stopOk) false st
      { type := ty, auth := a2, data := d } := by
  constructor
  · rfl
  · simp only [handleRequest, ctlAuthenticate]
    exact launch_dispatch_token_indep reg acls cfg confOk startOk stopOk st ty d
      "unauthenticated" ((a1.getD { user := "", token := "" }).token)
      ((a2.getD { user := "", token := "" }).token)

/-! ### C4: the permissions the proxy handlers actually check -/

/-- The ACL state of the C4 scenario: alice has only the proxy_list
permission, through role viewer. -/
def c4Acl : AclChecker :=
  { enabled := true
    users := [("alice", { name := "alice", roles := ["viewer"], token := "T", groups := [] })]
    groups := []
    roles := [("viewer", { name := "viewer", permissions := ["proxy_list"] })] }

/-- A proxy.start request from alice. -/
def c4StartReq : Request :=
  { type := "proxy.start", auth := some { user := "alice", token := "T" },
    data := { name := "p1", host := "", aliasName := "" } }

/-- A proxy.stop request from alice. -/
def c4StopReq : Request :=
  { type := "proxy.stop", auth := some { user := "alice", token := "T" },
    data := { name := "p1", host := "", aliasName := "" } }

/-- A proxy.status request from alice. -/
def c4StatusReq : Request :=
  { type := "proxy.status", auth := some { user := "alice", token := "T" },
    data := { name := "p1", host := "", aliasName := "" } }

/-- C4 (code evaluated at the failing input): alice holds none of the
permissions proxy_start, proxy_stop, proxy_status, yet the start, stop
and status handlers all let her through - they check proxy_list instead
- and the start handler even spawns the proxy. -/
theorem c4_wrong_permission :
    Can (some c4Acl) "alice" "proxy_start" mgrProxy.acls = false
    ∧ Can (some c4Acl) "alice" "proxy_stop" mgrProxy.acls = false
    ∧ Can (some c4Acl) "alice" "proxy_status" mgrProxy.acls = false
    ∧ (startProxyHandler ["ssh_exec"] (some c4Acl) mgrCfg true true mgrInit
        c4StartReq).2 = okResp none
    ∧ (startProxyHandler ["ssh_exec"] (some c4Acl) mgrCfg true true mgrInit
        c4StartReq).1.live "p1" = 1
    ∧ (stopProxyHandler ["ssh_exec"] (some c4Acl) mgrCfg true mgrRunningSt
        c4StopReq).2 = okResp none
    ∧ (proxyStatusHandler ["ssh_exec"] (some c4Acl) mgrCfg mgrRunningSt
        c4StatusReq).2.status = "ok" := by
  refine ⟨?_, ?_, ?_, ?_, ?_, ?_, ?_⟩ <;> decide

/-! ### C7: system.ping has no registered handler -/

/-- The commands registered by the geistd main draft, in registration
order; system.ping is not among them. -/
def part006Commands : List String :=
  ["proxy.start", "proxy.stop", "proxy.status", "proxy.list",
   "proxy.info", "proxy.setactive"]

/-- A dispatcher table over the draft registration set, with the handler
bound to each command left abstract: the claim is decided by the key set
alone. -/
def part006Table (hs : String → Handler) : List (String × Handler) :=
  part006Commands.map (fun c => (c, hs c))

/-- C7 (amended): every request of type system.ping, whatever its auth
block, payload, manager state and handler assignment, is answered with
the unknown command error, because system.ping is not a registered
command. -/
theorem c7_ping_unregistered (hs : String → Handler) (st : MgrState)
    (auth : Option Auth) (d : ReqData) :
    dispatch (part006Table hs) st { type := "system.ping", auth := auth, data := d }
      = (st, errResp "unknown command") := by
  simp [dispatch, part006Table, part006Commands, findA]

/-- Counterexample for C7 as stated: a concrete system.ping request is
answered with status error, not ok. -/
theorem c7_counterexample :
    (dispatch (part006Table (fun _ => fun st _ => (st, okResp none))) mgrInit
      { type := "system.ping", auth := none,
        data := { name := "", host := "", aliasName := "" } }).2
      = errResp "unknown command"
    ∧ (errResp "unknown command").status ≠ "ok" := by
  constructor
  · rfl
  · decide

end Portgeist
